import Mathlib

/-!
Verification of the dataset diff engine of the kart repository.

The file embeds `kart/diff_util.py` (`get_all_ds_paths`, `get_repo_diff`,
`get_dataset_diff`) shallowly in Lean.  The collaborator modules
(`kart/diff_structs.py`, `kart/key_filters.py`, `kart/structure.py` and the
working-copy provider) are not part of the available sources; their behaviour
is modelled from the specification, and every such definition is marked
`Modelled from the spec:` in its doc comment.

Conventions of the embedding:
  * dataset paths, diff-kind names, primary keys and cell values are `String`;
  * Python dictionaries become association lists (`alookup` is dict lookup);
  * Python `None` becomes `Option.none`;
  * an `AttributeError` raised by dereferencing `None` becomes an `Err` value,
    so the embedded functions return `Except Err _`;
  * object construction of the working-copy diff cache and the calls made to
    `get_dataset_diff` / `diff_to_working_copy` are recorded as `Event`s in an
    explicit state `St`, which also carries a counter used to give each cache
    object a distinct identity.
-/

/-- Dictionary lookup on an association list (Python `dict.get`). -/
def alookup {β : Type} : List (String × β) → String → Option β
  | [], _ => none
  | e :: rest, k => if e.1 = k then some e.2 else alookup rest k

/-- Modelled from the spec: a Delta is an ordered pair (old value, new value),
either of which may be absent (`kart/diff_structs.py`, not in the sources). -/
structure Delta where
  old : Option String
  new : Option String
deriving DecidableEq

/-- Modelled from the spec: a DeltaDiff maps keys to Deltas. -/
abbrev DeltaDiff := List (String × Delta)

/-- Modelled from the spec: a DatasetDiff maps diff-kind names to DeltaDiffs. -/
abbrev DatasetDiff := List (String × DeltaDiff)

/-- Modelled from the spec: a RepoDiff maps dataset paths to DatasetDiffs. -/
abbrev RepoDiff := List (String × DatasetDiff)

/-- Combine the entry of the first diff with the matching entry of the second,
returning `none` when the combined entry is dropped. -/
def mergeEntry {β : Type} (comb : β → β → Option β) (d2 : List (String × β))
    (k : String) (x : β) : Option β :=
  match alookup d2 k with
  | some y => comb x y
  | none => some x

/-- Structural merge of two association lists: matching entries are combined
with `comb` (and dropped when `comb` yields `none`), unmatched entries are
carried over unchanged. -/
def assocMerge {β : Type} (comb : β → β → Option β)
    (d1 d2 : List (String × β)) : List (String × β) :=
  d1.filterMap (fun e => (mergeEntry comb d2 e.1 e.2).map (fun z => (e.1, z)))
    ++ d2.filter (fun e => (alookup d1 e.1).isNone)

/-- Modelled from the spec: concatenating two DeltaDiffs computed over adjacent
transitions (A to B, then B to C) gives the effective A-to-C delta per key:
old comes from the first diff (or the second if the key is unseen in the
first), new comes from the second diff (or the first if the key is unseen in
the second); a key present in both whose combined delta cancels out
(old = new) is dropped. -/
def DeltaDiff.concatenated (d1 d2 : DeltaDiff) : DeltaDiff :=
  assocMerge
    (fun x y => if x.old = y.new then none else some (Delta.mk x.old y.new))
    d1 d2

/-- Modelled from the spec: reversal of a Delta swaps old and new. -/
def Delta.reverse (d : Delta) : Delta := Delta.mk d.new d.old

/-- Modelled from the spec: reversal of a DeltaDiff reverses every delta. -/
def DeltaDiff.reversed (dd : DeltaDiff) : DeltaDiff :=
  dd.map (fun e => (e.1, e.2.reverse))

/-- Modelled from the spec: reversal of a DatasetDiff reverses every leaf. -/
def DatasetDiff.reversed (d : DatasetDiff) : DatasetDiff :=
  d.map (fun e => (e.1, DeltaDiff.reversed e.2))

/-- Modelled from the spec: merging two DatasetDiffs concatenates matching
DeltaDiffs and carries over unmatched ones unchanged. -/
def DatasetDiff.concatRaw (d1 d2 : DatasetDiff) : DatasetDiff :=
  assocMerge (fun x y => some (DeltaDiff.concatenated x y)) d1 d2

/-- Modelled from the spec: `DatasetDiff.concatenated(diff1, diff2)` where
either argument may be Python `None` (treated as an empty diff).  The
`overwrite_original` flag of the source is a mutation optimisation with no
semantic content in a pure embedding. -/
def DatasetDiff.concatenated (d1 d2 : Option DatasetDiff) : DatasetDiff :=
  DatasetDiff.concatRaw (d1.getD []) (d2.getD [])

/-- Modelled from the spec: pruning a DatasetDiff removes its empty leaf
DeltaDiffs. -/
def DatasetDiff.prune (d : DatasetDiff) : DatasetDiff :=
  d.filter (fun e => !e.2.isEmpty)

/-- Modelled from the spec: pruning a RepoDiff removes dataset entries whose
DatasetDiff is empty; with `recurse = true` the children are pruned first,
with `recurse = false` only this level's direct children are removed
(children are assumed to be already pruned). -/
def RepoDiff.prune (recurse : Bool) (r : RepoDiff) : RepoDiff :=
  (if recurse then r.map (fun e => (e.1, DatasetDiff.prune e.2)) else r).filter
    (fun e => !e.2.isEmpty)

/-- Modelled from the spec: a DatasetKeyFilter either matches every primary
key or matches an explicit set of primary keys (`kart/key_filters.py`). -/
inductive DatasetKeyFilter where
  | matchAll : DatasetKeyFilter
  | explicit : List String → DatasetKeyFilter
deriving DecidableEq

/-- Modelled from the spec: whether a primary key is in scope of the filter. -/
def DatasetKeyFilter.matches : DatasetKeyFilter → String → Bool
  | .matchAll, _ => true
  | .explicit keys, k => decide (k ∈ keys)

/-- Modelled from the spec: a RepoKeyFilter either matches everything or maps
an explicit set of dataset paths to nested DatasetKeyFilters. -/
inductive RepoKeyFilter where
  | matchAll : RepoKeyFilter
  | explicit : List (String × DatasetKeyFilter) → RepoKeyFilter
deriving DecidableEq

/-- Modelled from the spec: the `match_all` test of a RepoKeyFilter. -/
def RepoKeyFilter.isMatchAll : RepoKeyFilter → Bool
  | .matchAll => true
  | .explicit _ => false

/-- Modelled from the spec: `filter_keys(candidate_keys)` returns the
intersection of the candidates with the filter's explicit key set when the
filter is not match-all, else the candidates unchanged. -/
def RepoKeyFilter.filter_keys : RepoKeyFilter → List String → List String
  | .matchAll, keys => keys
  | .explicit m, keys => keys.filter (fun k => (alookup m k).isSome)

/-- Modelled from the spec: whether a dataset path passes the repo filter. -/
def RepoKeyFilter.acceptsPath : RepoKeyFilter → String → Bool
  | .matchAll, _ => true
  | .explicit m, p => (alookup m p).isSome

/-- Modelled from the spec: `filter[key]` yields a match-all filter when the
filter is match-all, the nested filter when the key is constrained, and an
empty (match-nothing) filter when the key is absent. -/
def RepoKeyFilter.index : RepoKeyFilter → String → DatasetKeyFilter
  | .matchAll, _ => DatasetKeyFilter.matchAll
  | .explicit m, p =>
    match alookup m p with
    | some f => f
    | none => DatasetKeyFilter.explicit []

/-- Items of one diff kind of a dataset: primary key to cell value. -/
abbrev Items := List (String × String)

/-- Modelled from the spec: the structured content of one dataset at one
snapshot, organised by diff-kind name (meta items, feature items, ...). -/
structure DsContent where
  parts : List (String × Items)
deriving DecidableEq

/-- Modelled from the spec: the working-copy provider.  `wc` is the live
external mirror: the current working-copy content of each dataset path. -/
structure Repo where
  wc : List (String × DsContent)
deriving DecidableEq

/-- Modelled from the spec: a dataset handle as resolved at some snapshot. -/
structure Dataset where
  path : String
  content : DsContent
deriving DecidableEq

/-- Modelled from the spec: the collection yielded by
`RepoStructure.datasets()`; it resolves dataset handles by path and knows the
repo (whose working copy backs `diff_to_working_copy`). -/
structure Datasets where
  entries : List (String × DsContent)
  repo : Repo
deriving DecidableEq

/-- Modelled from the spec: `.get(path)` resolves a dataset handle or yields
the absent marker. -/
def Datasets.get (dss : Datasets) (path : String) : Option Dataset :=
  (alookup dss.entries path).map (fun c => Dataset.mk path c)

/-- Modelled from the spec: a repository snapshot: the datasets present at
that snapshot, plus the repo they belong to. -/
structure RepoStructure where
  dss : List (String × DsContent)
  repo : Repo
deriving DecidableEq

/-- Modelled from the spec: `RepoStructure.datasets()`. -/
def RepoStructure.datasets (rs : RepoStructure) : Datasets :=
  Datasets.mk rs.dss rs.repo

/-- The dataset paths present in a Datasets collection. -/
def Datasets.pathList (dss : Datasets) : List String :=
  dss.entries.map Prod.fst

/-- The items a dataset content holds for one diff kind (empty when the kind
is absent). -/
def itemsAt (c : DsContent) (kind : String) : Items :=
  (alookup c.parts kind).getD []

/-- Items of one kind on a possibly absent side (absent side has no items). -/
def optItemsAt (o : Option DsContent) (kind : String) : Items :=
  match o with
  | some c => itemsAt c kind
  | none => []

/-- The delta of one key between two item collections, `none` when the value
is unchanged (a no-op delta is never materialised). -/
def itemsDelta (a b : Items) (k : String) : Option Delta :=
  if alookup a k = alookup b k then none
  else some (Delta.mk (alookup a k) (alookup b k))

/-- Modelled from the spec: the DeltaDiff of one kind between two item
collections, restricted to the keys in scope of the filter. -/
def itemsDiff (a b : Items) (f : DatasetKeyFilter) : DeltaDiff :=
  (((a.map Prod.fst ++ b.map Prod.fst).dedup).filter f.matches).filterMap
    (fun k => (itemsDelta a b k).map (fun d => (k, d)))

/-- The diff-kind names present on either side of a dataset comparison. -/
def diffKinds (self : DsContent) (other : Option DsContent) : List String :=
  (self.parts.map Prod.fst
    ++ (match other with
        | some o => o.parts.map Prod.fst
        | none => [])).dedup

/-- Modelled from the spec: the forward diff primitive — the changes from this
dataset's content to the other side's content (the other side may be absent,
turning every item of this side into a pure delete). -/
def dsContentDiffFwd (self : DsContent) (other : Option DsContent)
    (f : DatasetKeyFilter) : DatasetDiff :=
  (diffKinds self other).map
    (fun kind => (kind, itemsDiff (itemsAt self kind) (optItemsAt other kind) f))

/-- Modelled from the spec: `Dataset.diff(other, ds_filter, reverse)` — the
diff primitive between this dataset and a possibly absent other side,
honouring `reverse` to swap the delta direction. -/
def Dataset.diff (self : Dataset) (other : Option Dataset)
    (f : DatasetKeyFilter) (reverse : Bool) : DatasetDiff :=
  if reverse then
    DatasetDiff.reversed (dsContentDiffFwd self.content (other.map Dataset.content) f)
  else dsContentDiffFwd self.content (other.map Dataset.content) f

/-- Modelled from the spec: `Dataset.diff_to_working_copy(cache, ds_filter)` —
the diff of the target dataset against the live working-copy mirror of the
repo at the dataset's path.  The cache argument only memoises scans and has no
semantic effect, so it does not appear here. -/
def Dataset.diff_to_working_copy (repo : Repo) (self : Dataset)
    (f : DatasetKeyFilter) : DatasetDiff :=
  dsContentDiffFwd self.content (alookup repo.wc self.path) f

/-- The observable events of a diff run: construction of a working-copy diff
cache (with its identity), entry into `get_dataset_diff` (with the cache
argument it received), and an invocation of `diff_to_working_copy` (with the
cache in use). -/
inductive Event where
  | cacheNew : Nat → Event
  | dsCall : String → Option Nat → Event
  | wcDiff : String → Nat → Event
deriving DecidableEq

/-- Whether an event is a cache construction. -/
def Event.isCacheNew : Event → Bool
  | .cacheNew _ => true
  | _ => false

/-- Whether an event is a working-copy diff invocation. -/
def Event.isWcDiff : Event → Bool
  | .wcDiff _ _ => true
  | _ => false

/-- Whether an event, if it is a `get_dataset_diff` call, received exactly the
cache with identity `n`. -/
def Event.usesCache (n : Nat) : Event → Bool
  | .dsCall _ c => decide (c = some n)
  | _ => true

/-- The instrumentation state threaded through a diff run: a counter supplying
fresh cache identities, and the event log. -/
structure St where
  nextId : Nat
  events : List Event
deriving DecidableEq

/-- Append one event to the log. -/
def St.log (st : St) (e : Event) : St :=
  St.mk st.nextId (st.events ++ [e])

/-- The errors the embedded code can raise: dereferencing the absent `from_ds`
to call `.diff` (both sides absent), and dereferencing the absent target
dataset to construct a working-copy diff cache. -/
inductive Err where
  | bothAbsent : Err
  | absentTargetWcCache : Err
deriving DecidableEq

/-- `get_all_ds_paths` of `kart/diff_util.py`: the set union of the dataset
paths of both snapshots, restricted by the repo key filter unless it is
match-all, returned sorted. -/
def get_all_ds_paths (base_rs target_rs : RepoStructure)
    (repo_key_filter : RepoKeyFilter) : List String :=
  let all_ds_paths :=
    (base_rs.datasets.pathList ++ target_rs.datasets.pathList).dedup
  let all_ds_paths :=
    if repo_key_filter.isMatchAll then all_ds_paths
    else repo_key_filter.filter_keys all_ds_paths
  List.insertionSort (· ≤ ·) all_ds_paths

/-- Lines 98-117 of `kart/diff_util.py`: resolve the dataset on both sides and
compute the snapshot-to-snapshot component of the dataset diff.  Yields the
resolved pair `(base_ds, target_ds)` together with the optional
`base_target_diff`; raises `Err.bothAbsent` when the code would call `.diff`
on the absent `from_ds`. -/
def snapshotPhase (ds_path : String) (base_datasets target_datasets : Datasets)
    (ds_filter : DatasetKeyFilter) :
    Except Err (Option Dataset × Option Dataset × Option DatasetDiff) :=
  if base_datasets = target_datasets then
    Except.ok (base_datasets.get ds_path, base_datasets.get ds_path, none)
  else
    match base_datasets.get ds_path, target_datasets.get ds_path with
    | some bds, tds => Except.ok (some bds, tds, some (bds.diff tds ds_filter false))
    | none, some tds =>
      Except.ok (none, some tds, some (tds.diff none ds_filter true))
    | none, none => Except.error Err.bothAbsent

/-- Lines 136-140 of `kart/diff_util.py`: concatenate the two component diffs
and prune the result. -/
def dsDiffFinish (base_target_diff target_wc_diff : Option DatasetDiff) :
    DatasetDiff :=
  DatasetDiff.prune (DatasetDiff.concatenated base_target_diff target_wc_diff)

/-- `get_dataset_diff` of `kart/diff_util.py`.  The call is logged as a
`dsCall` event together with the cache argument it received; a cache
constructed inside the call and an invocation of `diff_to_working_copy` are
logged as well. -/
def get_dataset_diff (ds_path : String)
    (base_datasets target_datasets : Datasets) (include_wc_diff : Bool)
    (workdir_diff_cache : Option Nat) (ds_filter : DatasetKeyFilter)
    (st : St) : Except Err DatasetDiff × St :=
  let st := st.log (Event.dsCall ds_path workdir_diff_cache)
  match snapshotPhase ds_path base_datasets target_datasets ds_filter with
  | Except.error e => (Except.error e, st)
  | Except.ok (_, target_ds, base_target_diff) =>
    if include_wc_diff then
      match workdir_diff_cache, target_ds with
      | none, none => (Except.error Err.absentTargetWcCache, st)
      | none, some tds =>
        let cid := st.nextId
        let st := St.mk (st.nextId + 1) (st.events ++ [Event.cacheNew cid])
        let st := st.log (Event.wcDiff ds_path cid)
        (Except.ok (dsDiffFinish base_target_diff
          (some (tds.diff_to_working_copy target_datasets.repo ds_filter))), st)
      | some _, none => (Except.ok (dsDiffFinish base_target_diff none), st)
      | some cid, some tds =>
        let st := st.log (Event.wcDiff ds_path cid)
        (Except.ok (dsDiffFinish base_target_diff
          (some (tds.diff_to_working_copy target_datasets.repo ds_filter))), st)
    else (Except.ok (dsDiffFinish base_target_diff none), st)

/-- The per-dataset loop of `get_repo_diff` (lines 63-72): each path is diffed
with the per-dataset sub-filter `repo_key_filter[path]` and inserted into the
aggregate; an error aborts the run. -/
def repoDiffLoop (base_datasets target_datasets : Datasets)
    (include_wc_diff : Bool) (workdir_diff_cache : Option Nat)
    (repo_key_filter : RepoKeyFilter) :
    List String → RepoDiff → St → Except Err RepoDiff × St
  | [], acc, st => (Except.ok acc, st)
  | p :: rest, acc, st =>
    match get_dataset_diff p base_datasets target_datasets include_wc_diff
        workdir_diff_cache (repo_key_filter.index p) st with
    | (Except.ok d, st') =>
      repoDiffLoop base_datasets target_datasets include_wc_diff
        workdir_diff_cache repo_key_filter rest (acc ++ [(p, d)]) st'
    | (Except.error e, st') => (Except.error e, st')

/-- Line 74 of `kart/diff_util.py`: the aggregate is pruned at the top level
only (non-recursive) before being returned; an error is passed through. -/
def finishRepo : Except Err RepoDiff × St → Except Err RepoDiff × St
  | (Except.ok rd, st') => (Except.ok (RepoDiff.prune false rd), st')
  | (Except.error e, st') => (Except.error e, st')

/-- `get_repo_diff` of `kart/diff_util.py`: enumerate the paths, lazily
construct the working-copy diff cache once when needed, run the per-dataset
loop, and prune the aggregate non-recursively. -/
def get_repo_diff (base_rs target_rs : RepoStructure)
    (include_wc_diff : Bool) (workdir_diff_cache : Option Nat)
    (repo_key_filter : RepoKeyFilter) (st : St) : Except Err RepoDiff × St :=
  let all_ds_paths := get_all_ds_paths base_rs target_rs repo_key_filter
  let ctor := include_wc_diff && workdir_diff_cache.isNone
  let cache := if ctor then some st.nextId else workdir_diff_cache
  let st := if ctor then St.mk (st.nextId + 1) (st.events ++ [Event.cacheNew st.nextId]) else st
  finishRepo (repoDiffLoop base_rs.datasets target_rs.datasets include_wc_diff
    cache repo_key_filter all_ds_paths [] st)

/-- Whether a DatasetDiff holds an entry for key `k` under diff kind `kind`. -/
def DatasetDiff.hasKey (d : DatasetDiff) (kind k : String) : Bool :=
  match alookup d kind with
  | some dd => (alookup dd k).isSome
  | none => false

deriving instance DecidableEq for Except

instance : DecidableEq DeltaDiff := inferInstance

instance : DecidableEq DatasetDiff := inferInstance

instance : DecidableEq RepoDiff := inferInstance

instance : DecidableEq (Except Err DatasetDiff × St) := inferInstance

instance : DecidableEq (Except Err RepoDiff × St) := inferInstance

theorem alookup_append {β : Type} (l1 l2 : List (String × β)) (k : String) :
    alookup (l1 ++ l2) k =
      match alookup l1 k with
      | some v => some v
      | none => alookup l2 k := by
  induction l1 with
  | nil => simp [alookup]
  | cons e rest ih =>
    by_cases h : e.1 = k <;> simp [alookup, h, ih]

theorem alookup_eq_none {β : Type} (l : List (String × β)) (k : String) :
    alookup l k = none ↔ k ∉ l.map Prod.fst := by
  induction l with
  | nil => simp [alookup]
  | cons e rest ih =>
    by_cases h : e.1 = k
    · simp [alookup, h]
    · have h' : ¬ k = e.1 := fun hh => h hh.symm
      simp [alookup, h, h', ih]

theorem alookup_isSome {β : Type} (l : List (String × β)) (k : String) :
    (alookup l k).isSome = true ↔ k ∈ l.map Prod.fst := by
  induction l with
  | nil => simp [alookup]
  | cons e rest ih =>
    by_cases h : e.1 = k
    · simp [alookup, h]
    · have h' : ¬ k = e.1 := fun hh => h hh.symm
      simp [alookup, h, h', ih]

theorem alookup_keyFilter {β : Type} (p : String → Bool) (l : List (String × β))
    (k : String) :
    alookup (l.filter (fun e => p e.1)) k =
      if p k then alookup l k else none := by
  induction l with
  | nil => simp [alookup]
  | cons e rest ih =>
    by_cases hk : e.1 = k
    · subst hk
      by_cases hp : p e.1 <;> simp [alookup, hp, ih]
    · by_cases hp : p e.1 <;> simp [alookup, hk, hp, ih]

theorem keyedFilterMap_cons_none {β γ : Type} (G : String → β → Option γ)
    (e : String × β) (rest : List (String × β)) (hg : G e.1 e.2 = none) :
    (e :: rest).filterMap (fun x => (G x.1 x.2).map (fun z => (x.1, z))) =
      rest.filterMap (fun x => (G x.1 x.2).map (fun z => (x.1, z))) := by
  simp [List.filterMap_cons, hg]

theorem keyedFilterMap_cons_some {β γ : Type} (G : String → β → Option γ)
    (e : String × β) (rest : List (String × β)) (z : γ)
    (hg : G e.1 e.2 = some z) :
    (e :: rest).filterMap (fun x => (G x.1 x.2).map (fun z => (x.1, z))) =
      (e.1, z) :: rest.filterMap (fun x => (G x.1 x.2).map (fun z => (x.1, z))) := by
  simp [List.filterMap_cons, hg]

theorem mem_keys_keyedFilterMap {β γ : Type} (G : String → β → Option γ)
    (l : List (String × β)) (k : String)
    (h : k ∈ (l.filterMap
      (fun e => (G e.1 e.2).map (fun z => (e.1, z)))).map Prod.fst) :
    k ∈ l.map Prod.fst := by
  induction l with
  | nil => simp at h
  | cons e rest ih =>
    cases hg : G e.1 e.2 with
    | none =>
      rw [keyedFilterMap_cons_none G e rest hg] at h
      exact List.mem_cons_of_mem _ (ih h)
    | some z =>
      rw [keyedFilterMap_cons_some G e rest z hg] at h
      simp only [List.map_cons, List.mem_cons] at h
      rcases h with h | h
      · simp [h]
      · exact List.mem_cons_of_mem _ (ih (by simpa using h))

theorem alookup_keyedFilterMap {β γ : Type} (G : String → β → Option γ)
    (l : List (String × β)) (k : String) (h : (l.map Prod.fst).Nodup) :
    alookup (l.filterMap (fun e => (G e.1 e.2).map (fun z => (e.1, z)))) k =
      match alookup l k with
      | some v => G k v
      | none => none := by
  induction l with
  | nil => simp [alookup]
  | cons e rest ih =>
    simp only [List.map_cons, List.nodup_cons] at h
    by_cases hk : e.1 = k
    · subst hk
      cases hg : G e.1 e.2 with
      | none =>
        rw [keyedFilterMap_cons_none G e rest hg]
        rw [ih h.2]
        have hn : alookup rest e.1 = none := (alookup_eq_none rest e.1).mpr h.1
        simp [alookup, hn, hg]
      | some z =>
        rw [keyedFilterMap_cons_some G e rest z hg]
        simp [alookup, hg]
    · cases hg : G e.1 e.2 with
      | none =>
        rw [keyedFilterMap_cons_none G e rest hg]
        rw [ih h.2]
        simp [alookup, hk]
      | some z =>
        rw [keyedFilterMap_cons_some G e rest z hg]
        simp only [alookup, if_neg hk]
        exact ih h.2

theorem nodup_keys_keyedFilterMap {β γ : Type} (G : String → β → Option γ)
    (l : List (String × β)) (h : (l.map Prod.fst).Nodup) :
    ((l.filterMap
      (fun e => (G e.1 e.2).map (fun z => (e.1, z)))).map Prod.fst).Nodup := by
  induction l with
  | nil => simp
  | cons e rest ih =>
    simp only [List.map_cons, List.nodup_cons] at h
    cases hg : G e.1 e.2 with
    | none =>
      rw [keyedFilterMap_cons_none G e rest hg]
      exact ih h.2
    | some z =>
      rw [keyedFilterMap_cons_some G e rest z hg]
      simp only [List.map_cons, List.nodup_cons]
      exact ⟨fun hm => h.1 (mem_keys_keyedFilterMap G rest e.1 hm), ih h.2⟩

theorem alookup_mapKeys {γ : Type} (f : String → γ) (L : List String)
    (k : String) (h : L.Nodup) :
    alookup (L.map (fun x => (x, f x))) k =
      if k ∈ L then some (f k) else none := by
  induction L with
  | nil => simp [alookup]
  | cons a rest ih =>
    simp only [List.nodup_cons] at h
    by_cases hk : a = k
    · subst hk
      simp [alookup, h.1]
    · have hk' : ¬ k = a := fun hh => hk hh.symm
      simp [alookup, hk, hk', ih h.2]

theorem keys_mapKeys {γ : Type} (f : String → γ) (L : List String) :
    (L.map (fun x => (x, f x))).map Prod.fst = L := by
  induction L with
  | nil => simp
  | cons a rest ih => simp [ih]

theorem alookup_assocMerge {β : Type} (comb : β → β → Option β)
    (d1 d2 : List (String × β)) (k : String)
    (h1 : (d1.map Prod.fst).Nodup) :
    alookup (assocMerge comb d1 d2) k =
      match alookup d1 k, alookup d2 k with
      | some x, some y => comb x y
      | some x, none => some x
      | none, _ => alookup d2 k := by
  unfold assocMerge
  rw [alookup_append]
  rw [alookup_keyedFilterMap (fun a b => mergeEntry comb d2 a b) d1 k h1]
  have hfil : alookup (d2.filter (fun e => (alookup d1 e.1).isNone)) k =
      if (alookup d1 k).isNone then alookup d2 k else none :=
    alookup_keyFilter (fun s => (alookup d1 s).isNone) d2 k
  cases hd1 : alookup d1 k with
  | none =>
    simp only [hd1, Option.isNone_none, if_pos] at hfil
    simp only [hfil]
  | some x =>
    simp only [hd1, Option.isNone_some, Bool.false_eq_true, if_false] at hfil
    unfold mergeEntry
    cases hd2 : alookup d2 k with
    | none => simp [hd2]
    | some y =>
      simp only [hd2]
      cases hc : comb x y with
      | none => simp [hc, hfil]
      | some z => simp [hc]

theorem nodup_keys_assocMerge {β : Type} (comb : β → β → Option β)
    (d1 d2 : List (String × β)) (h1 : (d1.map Prod.fst).Nodup)
    (h2 : (d2.map Prod.fst).Nodup) :
    ((assocMerge comb d1 d2).map Prod.fst).Nodup := by
  unfold assocMerge
  rw [List.map_append]
  apply List.Nodup.append
  · exact nodup_keys_keyedFilterMap _ d1 h1
  · have hsub : (d2.filter (fun e => (alookup d1 e.1).isNone)).Sublist d2 :=
      List.filter_sublist d2
    exact ((hsub.map Prod.fst).nodup h2)
  · intro k hk1 hk2
    have hmem : k ∈ d1.map Prod.fst := mem_keys_keyedFilterMap _ d1 k hk1
    have hsome : (alookup d1 k).isSome = true := (alookup_isSome d1 k).mpr hmem
    simp only [List.mem_map] at hk2
    rcases hk2 with ⟨e, he, hke⟩
    rw [List.mem_filter] at he
    rw [hke] at he
    rcases he with ⟨_, hiso⟩
    rw [Option.isNone_iff_eq_none.mp hiso] at hsome
    simp at hsome

theorem ofKeys_cons_none {γ : Type} (G : String → Option γ) (a : String)
    (rest : List String) (hg : G a = none) :
    (a :: rest).filterMap (fun x => (G x).map (fun z => (x, z))) =
      rest.filterMap (fun x => (G x).map (fun z => (x, z))) := by
  simp [List.filterMap_cons, hg]

theorem ofKeys_cons_some {γ : Type} (G : String → Option γ) (a : String)
    (rest : List String) (z : γ) (hg : G a = some z) :
    (a :: rest).filterMap (fun x => (G x).map (fun z => (x, z))) =
      (a, z) :: rest.filterMap (fun x => (G x).map (fun z => (x, z))) := by
  simp [List.filterMap_cons, hg]

theorem mem_keys_ofKeys {γ : Type} (G : String → Option γ) (L : List String)
    (k : String)
    (h : k ∈ (L.filterMap (fun x => (G x).map (fun z => (x, z)))).map Prod.fst) :
    k ∈ L := by
  induction L with
  | nil => simp at h
  | cons a rest ih =>
    cases hg : G a with
    | none =>
      rw [ofKeys_cons_none G a rest hg] at h
      exact List.mem_cons_of_mem _ (ih h)
    | some z =>
      rw [ofKeys_cons_some G a rest z hg] at h
      simp only [List.map_cons, List.mem_cons] at h
      rcases h with h | h
      · simp [h]
      · exact List.mem_cons_of_mem _ (ih (by simpa using h))

theorem alookup_ofKeys {γ : Type} (G : String → Option γ) (L : List String)
    (k : String) (h : L.Nodup) :
    alookup (L.filterMap (fun x => (G x).map (fun z => (x, z)))) k =
      if k ∈ L then G k else none := by
  induction L with
  | nil => simp [alookup]
  | cons a rest ih =>
    simp only [List.nodup_cons] at h
    by_cases hk : a = k
    · subst hk
      cases hg : G a with
      | none =>
        rw [ofKeys_cons_none G a rest hg, ih h.2]
        have : a ∉ rest := h.1
        simp [this, hg]
      | some z =>
        rw [ofKeys_cons_some G a rest z hg]
        simp [alookup, hg]
    · have hk' : ¬ k = a := fun hh => hk hh.symm
      cases hg : G a with
      | none =>
        rw [ofKeys_cons_none G a rest hg, ih h.2]
        simp [hk']
      | some z =>
        rw [ofKeys_cons_some G a rest z hg]
        simp only [alookup, if_neg hk, ih h.2]
        simp [hk']

theorem nodup_keys_ofKeys {γ : Type} (G : String → Option γ) (L : List String)
    (h : L.Nodup) :
    ((L.filterMap (fun x => (G x).map (fun z => (x, z)))).map Prod.fst).Nodup := by
  induction L with
  | nil => simp
  | cons a rest ih =>
    simp only [List.nodup_cons] at h
    cases hg : G a with
    | none =>
      rw [ofKeys_cons_none G a rest hg]
      exact ih h.2
    | some z =>
      rw [ofKeys_cons_some G a rest z hg]
      simp only [List.map_cons, List.nodup_cons]
      exact ⟨fun hm => h.1 (mem_keys_ofKeys G rest a hm), ih h.2⟩

theorem alookup_keyedMap {β γ : Type} (F : String → β → γ)
    (l : List (String × β)) (k : String) :
    alookup (l.map (fun e => (e.1, F e.1 e.2))) k = (alookup l k).map (F k) := by
  induction l with
  | nil => simp [alookup]
  | cons e rest ih =>
    by_cases hk : e.1 = k
    · subst hk
      simp [alookup]
    · simp [alookup, hk, ih]

theorem keys_keyedMap {β γ : Type} (F : String → β → γ)
    (l : List (String × β)) :
    (l.map (fun e => (e.1, F e.1 e.2))).map Prod.fst = l.map Prod.fst := by
  induction l with
  | nil => simp
  | cons e rest ih => simp [ih]

theorem alookup_filter_nodup {β : Type} (p : String × β → Bool)
    (l : List (String × β)) (h : (l.map Prod.fst).Nodup) (k : String) :
    alookup (l.filter p) k =
      match alookup l k with
      | some v => if p (k, v) then some v else none
      | none => none := by
  induction l with
  | nil => simp [alookup]
  | cons e rest ih =>
    simp only [List.map_cons, List.nodup_cons] at h
    by_cases hk : e.1 = k
    · subst hk
      have hrest : alookup rest e.1 = none := (alookup_eq_none rest e.1).mpr h.1
      have hrestf : alookup (rest.filter p) e.1 = none := by
        rw [alookup_eq_none]
        intro hm
        exact h.1 (((List.filter_sublist rest).map Prod.fst).mem hm)
      by_cases hp : p e
      · have he : (e.1, e.2) = e := rfl
        simp [List.filter_cons, hp, alookup, he]
      · have he : (e.1, e.2) = e := rfl
        simp [List.filter_cons, hp, alookup, hrestf, he]
    · by_cases hp : p e
      · simp [List.filter_cons, hp, alookup, hk, ih h.2]
      · simp [List.filter_cons, hp, alookup, hk, ih h.2]

theorem alookup_itemsDiff (a b : Items) (f : DatasetKeyFilter) (k : String) :
    alookup (itemsDiff a b f) k =
      if f.matches k then itemsDelta a b k else none := by
  unfold itemsDiff
  have hnodup : (((a.map Prod.fst ++ b.map Prod.fst).dedup).filter f.matches).Nodup :=
    (List.nodup_dedup _).filter _
  rw [alookup_ofKeys (itemsDelta a b) _ k hnodup]
  by_cases hm : f.matches k
  · simp only [hm, if_true]
    by_cases hin : k ∈ (a.map Prod.fst ++ b.map Prod.fst).dedup
    · simp [List.mem_filter, hin, hm]
    · have hink : ¬ k ∈ ((a.map Prod.fst ++ b.map Prod.fst).dedup).filter f.matches := by
        simp [List.mem_filter, hin]
      have ha : alookup a k = none := by
        rw [alookup_eq_none]
        intro hma
        exact hin (by simp [List.mem_dedup, hma])
      have hb : alookup b k = none := by
        rw [alookup_eq_none]
        intro hmb
        exact hin (by simp [List.mem_dedup, hmb])
      simp [hink, itemsDelta, ha, hb]
  · have hink : ¬ k ∈ ((a.map Prod.fst ++ b.map Prod.fst).dedup).filter f.matches := by
      simp [List.mem_filter, hm]
    simp [hm, hink]

theorem nodup_keys_itemsDiff (a b : Items) (f : DatasetKeyFilter) :
    ((itemsDiff a b f).map Prod.fst).Nodup :=
  nodup_keys_ofKeys _ _ ((List.nodup_dedup _).filter _)

theorem alookup_dsContentDiffFwd (self : DsContent) (other : Option DsContent)
    (f : DatasetKeyFilter) (kind : String) :
    alookup (dsContentDiffFwd self other f) kind =
      if kind ∈ diffKinds self other then
        some (itemsDiff (itemsAt self kind) (optItemsAt other kind) f)
      else none := by
  unfold dsContentDiffFwd
  exact alookup_mapKeys _ _ kind (List.nodup_dedup _)

theorem nodup_keys_dsContentDiffFwd (self : DsContent) (other : Option DsContent)
    (f : DatasetKeyFilter) :
    ((dsContentDiffFwd self other f).map Prod.fst).Nodup := by
  unfold dsContentDiffFwd
  rw [keys_mapKeys]
  exact List.nodup_dedup _

theorem hasKey_prune (d : DatasetDiff) (h : (d.map Prod.fst).Nodup)
    (kind k : String) :
    (DatasetDiff.prune d).hasKey kind k = d.hasKey kind k := by
  unfold DatasetDiff.prune DatasetDiff.hasKey
  rw [alookup_filter_nodup _ d h kind]
  cases hd : alookup d kind with
  | none => simp
  | some dd =>
    cases dd with
    | nil => simp [alookup]
    | cons e rest => simp

theorem alookup_DeltaDiff_concatenated (d1 d2 : DeltaDiff) (k : String)
    (h1 : (d1.map Prod.fst).Nodup) :
    alookup (DeltaDiff.concatenated d1 d2) k =
      match alookup d1 k, alookup d2 k with
      | some x, some y =>
        if x.old = y.new then none else some (Delta.mk x.old y.new)
      | some x, none => some x
      | none, _ => alookup d2 k := by
  unfold DeltaDiff.concatenated
  rw [alookup_assocMerge
    (fun x y => if x.old = y.new then none else some (Delta.mk x.old y.new))
    d1 d2 k h1]
  cases alookup d1 k <;> cases alookup d2 k <;> rfl

theorem alookup_concatRaw (d1 d2 : DatasetDiff) (k : String)
    (h1 : (d1.map Prod.fst).Nodup) :
    alookup (DatasetDiff.concatRaw d1 d2) k =
      match alookup d1 k, alookup d2 k with
      | some x, some y => some (DeltaDiff.concatenated x y)
      | some x, none => some x
      | none, _ => alookup d2 k := by
  unfold DatasetDiff.concatRaw
  rw [alookup_assocMerge (fun x y => some (DeltaDiff.concatenated x y))
    d1 d2 k h1]
  cases alookup d1 k <;> cases alookup d2 k <;> rfl

theorem keys_reversed (d : DatasetDiff) :
    (DatasetDiff.reversed d).map Prod.fst = d.map Prod.fst :=
  keys_keyedMap (fun _ dd => DeltaDiff.reversed dd) d

theorem nodup_keys_reversed (d : DatasetDiff) (h : (d.map Prod.fst).Nodup) :
    ((DatasetDiff.reversed d).map Prod.fst).Nodup := by
  rw [keys_reversed]
  exact h

theorem nodup_keys_dataset_diff (self : Dataset) (other : Option Dataset)
    (f : DatasetKeyFilter) (rev : Bool) :
    ((Dataset.diff self other f rev).map Prod.fst).Nodup := by
  unfold Dataset.diff
  cases rev with
  | true =>
    simp only [if_true]
    exact nodup_keys_reversed _ (nodup_keys_dsContentDiffFwd _ _ _)
  | false =>
    simp only [Bool.false_eq_true, if_false]
    exact nodup_keys_dsContentDiffFwd _ _ _

theorem nodup_keys_concatRaw (d1 d2 : DatasetDiff)
    (h1 : (d1.map Prod.fst).Nodup) (h2 : (d2.map Prod.fst).Nodup) :
    ((DatasetDiff.concatRaw d1 d2).map Prod.fst).Nodup :=
  nodup_keys_assocMerge _ d1 d2 h1 h2

theorem mem_itemsDiff (a b : Items) (f : DatasetKeyFilter) (k : String)
    (δ : Delta) (h : (k, δ) ∈ itemsDiff a b f) :
    itemsDelta a b k = some δ := by
  unfold itemsDiff at h
  rw [List.mem_filterMap] at h
  rcases h with ⟨x, _, hx⟩
  cases hg : itemsDelta a b x with
  | none =>
    rw [hg] at hx
    exact Option.noConfusion hx
  | some z =>
    rw [hg] at hx
    simp only [Option.map_some', Option.some_inj] at hx
    have hxk : x = k := congrArg Prod.fst hx
    have hzd : z = δ := congrArg Prod.snd hx
    rw [← hxk, hg, hzd]

/-- Every delta of the diff is an insert: absent old value, present new. -/
def DatasetDiff.allInserts (d : DatasetDiff) : Bool :=
  d.all (fun e => e.2.all (fun kd => kd.2.old.isNone && kd.2.new.isSome))

/-- Every delta of the diff is a delete: present old value, absent new. -/
def DatasetDiff.allDeletes (d : DatasetDiff) : Bool :=
  d.all (fun e => e.2.all (fun kd => kd.2.old.isSome && kd.2.new.isNone))

theorem delta_of_itemsDiff_absent (a : Items) (f : DatasetKeyFilter)
    (k : String) (δ : Delta) (h : (k, δ) ∈ itemsDiff a [] f) :
    δ.old.isSome = true ∧ δ.new = none := by
  have hd := mem_itemsDiff a [] f k δ h
  unfold itemsDelta at hd
  by_cases hae : alookup a k = alookup [] k
  · rw [if_pos hae] at hd
    exact Option.noConfusion hd
  · rw [if_neg hae] at hd
    have hnil : alookup ([] : Items) k = none := rfl
    rw [hnil] at hae hd
    cases hav : alookup a k with
    | none => exact absurd hav hae
    | some v =>
      rw [hav] at hd
      have : Delta.mk (some v) none = δ := Option.some_inj.mp hd
      rw [← this]
      exact ⟨rfl, rfl⟩

theorem allDeletes_fwd_absent (c : DsContent) (f : DatasetKeyFilter) :
    DatasetDiff.allDeletes (dsContentDiffFwd c none f) = true := by
  unfold DatasetDiff.allDeletes
  rw [List.all_eq_true]
  intro e he
  rw [List.all_eq_true]
  intro kd hkd
  unfold dsContentDiffFwd at he
  rw [List.mem_map] at he
  rcases he with ⟨kind, _, hke⟩
  have he2 : e.2 = itemsDiff (itemsAt c kind) (optItemsAt none kind) f :=
    (congrArg Prod.snd hke).symm
  rw [he2] at hkd
  have hnil : optItemsAt none kind = [] := rfl
  rw [hnil] at hkd
  have hkd' : (kd.1, kd.2) ∈ itemsDiff (itemsAt c kind) [] f := hkd
  have := delta_of_itemsDiff_absent (itemsAt c kind) f kd.1 kd.2 hkd'
  simp [this.1, this.2]

theorem allInserts_reversed_of_allDeletes (d : DatasetDiff)
    (h : DatasetDiff.allDeletes d = true) :
    DatasetDiff.allInserts (DatasetDiff.reversed d) = true := by
  unfold DatasetDiff.allInserts DatasetDiff.reversed
  unfold DatasetDiff.allDeletes at h
  rw [List.all_eq_true] at h ⊢
  intro e he
  rw [List.mem_map] at he
  rcases he with ⟨e0, he0, hee⟩
  have h0 := h e0 he0
  rw [List.all_eq_true] at h0 ⊢
  intro kd hkd
  have he2 : e.2 = DeltaDiff.reversed e0.2 := (congrArg Prod.snd hee).symm
  rw [he2] at hkd
  unfold DeltaDiff.reversed at hkd
  rw [List.mem_map] at hkd
  rcases hkd with ⟨kd0, hkd0, hkk⟩
  have h1 := h0 kd0 hkd0
  have hkd2 : kd.2 = kd0.2.reverse := (congrArg Prod.snd hkk).symm
  rw [hkd2]
  unfold Delta.reverse
  simp only [Bool.and_eq_true] at h1
  simp [h1.1, h1.2]

theorem filter_eq_nil_of_all_not (p : Event → Bool) (l : List Event)
    (h : l.all (fun e => !p e) = true) : l.filter p = [] := by
  induction l with
  | nil => rfl
  | cons e rest ih =>
    simp only [List.all_cons, Bool.and_eq_true, Bool.not_eq_true'] at h
    simp [List.filter_cons, h.1, ih (by simp [List.all_eq_true] at h ⊢; exact h.2)]

theorem gdd_events_nowc (p : String) (b t : Datasets) (c : Option Nat)
    (f : DatasetKeyFilter) (st : St) :
    (get_dataset_diff p b t false c f st).2 =
      St.mk st.nextId (st.events ++ [Event.dsCall p c]) := by
  unfold get_dataset_diff
  cases hsp : snapshotPhase p b t f with
  | error e => rfl
  | ok v =>
    obtain ⟨x, y, z⟩ := v
    rfl

theorem gdd_events_some (p : String) (b t : Datasets) (iwc : Bool) (n : Nat)
    (f : DatasetKeyFilter) (st : St) :
    ∃ tl, (get_dataset_diff p b t iwc (some n) f st).2 =
        St.mk st.nextId (st.events ++ Event.dsCall p (some n) :: tl) ∧
      (tl = [] ∨ tl = [Event.wcDiff p n]) := by
  unfold get_dataset_diff
  cases hsp : snapshotPhase p b t f with
  | error e => exact ⟨[], rfl, Or.inl rfl⟩
  | ok v =>
    obtain ⟨x, y, z⟩ := v
    cases iwc with
    | false => exact ⟨[], rfl, Or.inl rfl⟩
    | true =>
      cases y with
      | none => exact ⟨[], rfl, Or.inl rfl⟩
      | some tds =>
        refine ⟨[Event.wcDiff p n], ?_, Or.inr rfl⟩
        simp [St.log, List.append_assoc]

theorem loop_events_some (b t : Datasets) (iwc : Bool) (n : Nat)
    (rkf : RepoKeyFilter) :
    ∀ (paths : List String) (acc : RepoDiff) (st : St),
    ∃ tl, (repoDiffLoop b t iwc (some n) rkf paths acc st).2 =
        St.mk st.nextId (st.events ++ tl) ∧
      tl.filter Event.isCacheNew = [] ∧ tl.all (Event.usesCache n) = true := by
  intro paths
  induction paths with
  | nil => intro acc st; exact ⟨[], by simp [repoDiffLoop], rfl, rfl⟩
  | cons p rest ih =>
    intro acc st
    obtain ⟨tl0, h0, hd⟩ := gdd_events_some p b t iwc n (rkf.index p) st
    have htl0f : (Event.dsCall p (some n) :: tl0).filter Event.isCacheNew = [] := by
      rcases hd with h | h <;> subst h <;> rfl
    have htl0a : (Event.dsCall p (some n) :: tl0).all (Event.usesCache n) = true := by
      rcases hd with h | h <;> subst h <;> simp [Event.usesCache]
    cases hgd : get_dataset_diff p b t iwc (some n) (rkf.index p) st with
    | mk r st' =>
      rw [hgd] at h0
      cases r with
      | error e =>
        refine ⟨Event.dsCall p (some n) :: tl0, ?_, htl0f, htl0a⟩
        simp only [repoDiffLoop, hgd]
        exact h0
      | ok d =>
        have h0' : st' =
            St.mk st.nextId (st.events ++ Event.dsCall p (some n) :: tl0) := h0
        obtain ⟨tl1, h1, h1f, h1a⟩ := ih (acc ++ [(p, d)]) st'
        refine ⟨(Event.dsCall p (some n) :: tl0) ++ tl1, ?_, ?_, ?_⟩
        · simp only [repoDiffLoop, hgd]
          rw [h1, h0']
          simp [List.append_assoc]
        · rw [List.filter_append, htl0f, h1f]
          rfl
        · rw [List.all_append, htl0a, h1a]
          rfl


theorem loop_events_nowc (b t : Datasets) (c : Option Nat)
    (rkf : RepoKeyFilter) :
    ∀ (paths : List String) (acc : RepoDiff) (st : St),
    ∃ tl, (repoDiffLoop b t false c rkf paths acc st).2 =
        St.mk st.nextId (st.events ++ tl) ∧
      tl.all (fun e => !e.isCacheNew && !e.isWcDiff) = true := by
  intro paths
  induction paths with
  | nil => intro acc st; exact ⟨[], by simp [repoDiffLoop], rfl⟩
  | cons p rest ih =>
    intro acc st
    have h0 := gdd_events_nowc p b t c (rkf.index p) st
    cases hgd : get_dataset_diff p b t false c (rkf.index p) st with
    | mk r st' =>
      rw [hgd] at h0
      have h0' : st' = St.mk st.nextId (st.events ++ [Event.dsCall p c]) := h0
      cases r with
      | error e =>
        refine ⟨[Event.dsCall p c], ?_, rfl⟩
        simp only [repoDiffLoop, hgd]
        exact h0'
      | ok d =>
        obtain ⟨tl1, h1, h1a⟩ := ih (acc ++ [(p, d)]) st'
        refine ⟨Event.dsCall p c :: tl1, ?_, ?_⟩
        · simp only [repoDiffLoop, hgd]
          rw [h1, h0']
          simp [List.append_assoc]
        · simp only [List.all_cons, h1a]
          rfl

theorem snapshotPhase_repo_irrel (p : String)
    (be te : List (String × DsContent)) (r1 r2 : Repo)
    (f : DatasetKeyFilter) :
    snapshotPhase p (Datasets.mk be r1) (Datasets.mk te r1) f =
      snapshotPhase p (Datasets.mk be r2) (Datasets.mk te r2) f := by
  unfold snapshotPhase Datasets.get
  by_cases h : be = te <;> simp [Datasets.mk.injEq, h]

theorem gdd_repo_irrel (p : String) (be te : List (String × DsContent))
    (r1 r2 : Repo) (c : Option Nat) (f : DatasetKeyFilter) (st : St) :
    get_dataset_diff p (Datasets.mk be r1) (Datasets.mk te r1) false c f st =
      get_dataset_diff p (Datasets.mk be r2) (Datasets.mk te r2) false c f st := by
  unfold get_dataset_diff
  rw [snapshotPhase_repo_irrel p be te r1 r2 f]
  cases snapshotPhase p (Datasets.mk be r2) (Datasets.mk te r2) f with
  | error e => rfl
  | ok v =>
    obtain ⟨x, y, z⟩ := v
    rfl

theorem loop_repo_irrel (be te : List (String × DsContent)) (r1 r2 : Repo)
    (c : Option Nat) (rkf : RepoKeyFilter) :
    ∀ (paths : List String) (acc : RepoDiff) (st : St),
    repoDiffLoop (Datasets.mk be r1) (Datasets.mk te r1) false c rkf paths acc st =
      repoDiffLoop (Datasets.mk be r2) (Datasets.mk te r2) false c rkf paths acc st := by
  intro paths
  induction paths with
  | nil => intro acc st; rfl
  | cons p rest ih =>
    intro acc st
    simp only [repoDiffLoop]
    rw [gdd_repo_irrel p be te r1 r2 c (rkf.index p) st]
    cases get_dataset_diff p (Datasets.mk be r2) (Datasets.mk te r2) false c
        (rkf.index p) st with
    | mk r st' =>
      cases r with
      | error e => rfl
      | ok d => exact ih (acc ++ [(p, d)]) st'

theorem get_repo_diff_repo_irrel (be te : List (String × DsContent))
    (r1 r2 : Repo) (c : Option Nat) (rkf : RepoKeyFilter) (st : St) :
    get_repo_diff (RepoStructure.mk be r1) (RepoStructure.mk te r1) false c rkf st =
      get_repo_diff (RepoStructure.mk be r2) (RepoStructure.mk te r2) false c rkf st := by
  exact congrArg finishRepo
    (loop_repo_irrel be te r1 r2 c rkf
      (get_all_ds_paths (RepoStructure.mk be r2) (RepoStructure.mk te r2) rkf)
      [] st)

theorem filter_idem {α : Type} (p : α → Bool) (l : List α) :
    (l.filter p).filter p = l.filter p := by
  induction l with
  | nil => rfl
  | cons e rest ih =>
    by_cases h : p e <;> simp [List.filter_cons, h, ih]

theorem all_filter_self {α : Type} (p : α → Bool) (l : List α) :
    (l.filter p).all p = true := by
  rw [List.all_eq_true]
  intro x hx
  exact (List.mem_filter.mp hx).2

theorem DatasetDiff_prune_idem (d : DatasetDiff) :
    DatasetDiff.prune (DatasetDiff.prune d) = DatasetDiff.prune d :=
  filter_idem _ d

theorem RepoDiff_prune_idem (recurse : Bool) (r : RepoDiff) :
    RepoDiff.prune recurse (RepoDiff.prune recurse r) = RepoDiff.prune recurse r := by
  cases recurse with
  | false =>
    unfold RepoDiff.prune
    simp only [Bool.false_eq_true, if_false]
    exact filter_idem _ r
  | true =>
    induction r with
    | nil => rfl
    | cons e rest ih =>
      unfold RepoDiff.prune at ih ⊢
      simp only [if_true] at ih ⊢
      by_cases h : (DatasetDiff.prune e.2).isEmpty
      · simp [List.filter_cons, h, DatasetDiff_prune_idem, ih]
      · simp [List.filter_cons, h, DatasetDiff_prune_idem, ih]

/-- Shared concrete fixtures used by the witnesses and counterexamples. -/
def bC : DsContent := DsContent.mk [("feature", [("k", "a")])]

/-- Target-side content of the fixture dataset. -/
def tC : DsContent := DsContent.mk [("feature", [("k", "b")])]

/-- A repo whose working copy at path p equals the target content. -/
def repoT : Repo := Repo.mk [("p", tC)]

/-- A repo whose working copy at path p equals the base content. -/
def repoB : Repo := Repo.mk [("p", bC)]

/-- Fixture base-side dataset collection. -/
def bDs : Datasets := Datasets.mk [("p", bC)] repoT

/-- Fixture target-side dataset collection. -/
def tDs : Datasets := Datasets.mk [("p", tC)] repoT

/-- Fixture dataset collection with no datasets. -/
def emptyDs : Datasets := Datasets.mk [] repoT

/-- Fixture base snapshot. -/
def bRS : RepoStructure := RepoStructure.mk [("p", bC)] repoT

/-- Fixture target snapshot. -/
def tRS : RepoStructure := RepoStructure.mk [("p", tC)] repoT

theorem get_repo_diff_def (b t : RepoStructure) (iwc : Bool) (c : Option Nat)
    (rkf : RepoKeyFilter) (st : St) :
    get_repo_diff b t iwc c rkf st =
      finishRepo (repoDiffLoop b.datasets t.datasets iwc
        (if iwc && c.isNone then some st.nextId else c) rkf
        (get_all_ds_paths b t rkf) []
        (if iwc && c.isNone then
          St.mk (st.nextId + 1) (st.events ++ [Event.cacheNew st.nextId])
        else st)) := rfl

/-- Claim C8: pruning is idempotent: for every diff container (RepoDiff with
either recursion mode, or DatasetDiff), pruning an already pruned diff leaves
it unchanged — the pruned diff is a fixed point of prune. -/
theorem claim_C8 (d : DatasetDiff) (r : RepoDiff) (recurse : Bool) :
    DatasetDiff.prune (DatasetDiff.prune d) = DatasetDiff.prune d ∧
    RepoDiff.prune recurse (RepoDiff.prune recurse r) = RepoDiff.prune recurse r :=
  ⟨DatasetDiff_prune_idem d, RepoDiff_prune_idem recurse r⟩

/-- Claim C10: when base and target dataset collections are the identical
object and no working-copy diff is requested, no snapshot diff is computed
(both component diffs stay absent) and the returned DatasetDiff is empty. -/
theorem claim_C10 (p : String) (dss : Datasets) (c : Option Nat)
    (f : DatasetKeyFilter) (st : St) :
    snapshotPhase p dss dss f = Except.ok (dss.get p, dss.get p, none) ∧
    (get_dataset_diff p dss dss false c f st).1 = Except.ok [] := by
  have h1 : snapshotPhase p dss dss f =
      Except.ok (dss.get p, dss.get p, none) := by
    unfold snapshotPhase
    rw [if_pos rfl]
  refine ⟨h1, ?_⟩
  unfold get_dataset_diff
  rw [h1]
  rfl

theorem mem_get_all_ds_paths (b t : RepoStructure) (rkf : RepoKeyFilter)
    (x : String) :
    x ∈ get_all_ds_paths b t rkf ↔
      ((x ∈ b.datasets.pathList ∨ x ∈ t.datasets.pathList) ∧
        (rkf.isMatchAll = true ∨ rkf.acceptsPath x = true)) := by
  unfold get_all_ds_paths
  rw [List.mem_insertionSort]
  cases rkf with
  | matchAll =>
    simp [RepoKeyFilter.isMatchAll, RepoKeyFilter.acceptsPath,
      List.mem_dedup, List.mem_append]
  | explicit m =>
    simp [RepoKeyFilter.isMatchAll, RepoKeyFilter.acceptsPath,
      RepoKeyFilter.filter_keys, List.mem_filter, List.mem_dedup,
      List.mem_append, and_comm]

/-- Claim C2: `get_all_ds_paths` returns exactly the set union of the dataset
paths of the two snapshots, restricted by the repo key filter unless it is
match-all, as a duplicate-free list sorted ascending. -/
theorem claim_C2 (b t : RepoStructure) (rkf : RepoKeyFilter) :
    List.Sorted (· ≤ ·) (get_all_ds_paths b t rkf) ∧
    (get_all_ds_paths b t rkf).Nodup ∧
    ∀ x, x ∈ get_all_ds_paths b t rkf ↔
      ((x ∈ b.datasets.pathList ∨ x ∈ t.datasets.pathList) ∧
        (rkf.isMatchAll = true ∨ rkf.acceptsPath x = true)) := by
  refine ⟨List.sorted_insertionSort _ _, ?_, ?_⟩
  · apply ((List.perm_insertionSort _ _).nodup_iff).mpr
    cases rkf with
    | matchAll => exact List.nodup_dedup _
    | explicit m => exact (List.nodup_dedup _).filter _
  · exact fun x => mem_get_all_ds_paths b t rkf x

/-- Claim C2 witness: a concrete membership instance obtained through the
claim theorem. -/
theorem claim_C2_witness : "p" ∈ get_all_ds_paths bRS tRS RepoKeyFilter.matchAll :=
  ((claim_C2 bRS tRS RepoKeyFilter.matchAll).2.2 "p").mpr (by decide)

/-- Claim C5: a dataset path appears as a key of the RepoDiff returned by
`get_repo_diff` only if its dataset diff is non-empty: after the top-level
prune every remaining entry has a non-empty DatasetDiff. -/
theorem claim_C5 (b t : RepoStructure) (iwc : Bool) (c : Option Nat)
    (rkf : RepoKeyFilter) (st : St) (rd : RepoDiff) (st2 : St)
    (h : get_repo_diff b t iwc c rkf st = (Except.ok rd, st2)) :
    rd.all (fun e => !e.2.isEmpty) = true := by
  rw [get_repo_diff_def] at h
  cases hl : repoDiffLoop b.datasets t.datasets iwc
      (if iwc && c.isNone then some st.nextId else c) rkf
      (get_all_ds_paths b t rkf) []
      (if iwc && c.isNone then
        St.mk (st.nextId + 1) (st.events ++ [Event.cacheNew st.nextId])
      else st) with
  | mk r st' =>
    rw [hl] at h
    cases r with
    | error e =>
      exact Except.noConfusion (congrArg Prod.fst h)
    | ok rd0 =>
      have hrd : RepoDiff.prune false rd0 = rd := by
        have := congrArg Prod.fst h
        simpa [finishRepo] using this
      rw [← hrd]
      unfold RepoDiff.prune
      simp only [Bool.false_eq_true, if_false]
      exact all_filter_self _ rd0

/-- Claim C5 witness: the claim theorem applied at a concrete run. -/
theorem claim_C5_witness :
    ([("p", [("feature", [("k", Delta.mk (some "a") (some "b"))])])] : RepoDiff).all
      (fun e => !e.2.isEmpty) = true :=
  claim_C5 bRS tRS false none RepoKeyFilter.matchAll (St.mk 0 [])
    [("p", [("feature", [("k", Delta.mk (some "a") (some "b"))])])]
    (St.mk 0 [Event.dsCall "p" none]) (by decide)

theorem get_isSome_iff (dss : Datasets) (p : String) :
    (dss.get p).isSome = true ↔ p ∈ dss.pathList := by
  unfold Datasets.get Datasets.pathList
  rw [← alookup_isSome dss.entries p]
  cases alookup dss.entries p <;> simp

/-- Claim C3: when base and target sources are distinct, the snapshot diff is
computed base-to-target with reverse false when the dataset exists in base,
and target-to-base with reverse true when it is absent in base, so the result
keeps base-to-target semantics: absent-in-base with present-in-target yields
pure inserts, present-then-absent yields pure deletes. -/
theorem claim_C3 (p : String) (b t : Datasets) (f : DatasetKeyFilter)
    (hne : b ≠ t) :
    (∀ bd, b.get p = some bd →
      snapshotPhase p b t f =
        Except.ok (some bd, t.get p, some (bd.diff (t.get p) f false))) ∧
    (b.get p = none → ∀ td, t.get p = some td →
      snapshotPhase p b t f =
        Except.ok (none, some td, some (td.diff none f true)) ∧
      DatasetDiff.allInserts (td.diff none f true) = true) ∧
    (∀ bd, b.get p = some bd → t.get p = none →
      DatasetDiff.allDeletes (bd.diff none f false) = true) := by
  refine ⟨?_, ?_, ?_⟩
  · intro bd hbd
    unfold snapshotPhase
    rw [if_neg hne, hbd]
  · intro hbn td htd
    constructor
    · unfold snapshotPhase
      rw [if_neg hne, hbn, htd]
    · have hrev : td.diff none f true =
          DatasetDiff.reversed (dsContentDiffFwd td.content none f) := rfl
      rw [hrev]
      exact allInserts_reversed_of_allDeletes _ (allDeletes_fwd_absent _ f)
  · intro bd hbd htn
    have hfwd : bd.diff none f false = dsContentDiffFwd bd.content none f := rfl
    rw [hfwd]
    exact allDeletes_fwd_absent _ f

/-- Claim C3 witness: the insert branch of the claim theorem at a concrete
input (dataset present only in the target snapshot). -/
theorem claim_C3_witness :
    snapshotPhase "p" emptyDs tDs DatasetKeyFilter.matchAll =
      Except.ok (none, some (Dataset.mk "p" tC),
        some ((Dataset.mk "p" tC).diff none DatasetKeyFilter.matchAll true)) ∧
    DatasetDiff.allInserts
      ((Dataset.mk "p" tC).diff none DatasetKeyFilter.matchAll true) = true :=
  (claim_C3 "p" emptyDs tDs DatasetKeyFilter.matchAll (by decide)).2.1
    (by decide) (Dataset.mk "p" tC) (by decide)

/-- Claim C6: every path enumerated by `get_all_ds_paths` is present in at
least one of the two snapshots, so the snapshot phase of `get_dataset_diff`
never reaches the both-sides-absent error branch for such a path. -/
theorem claim_C6 (b t : RepoStructure) (rkf : RepoKeyFilter) (p : String)
    (f : DatasetKeyFilter) (hp : p ∈ get_all_ds_paths b t rkf) :
    ((b.datasets.get p).isSome = true ∨ (t.datasets.get p).isSome = true) ∧
    ∃ out, snapshotPhase p b.datasets t.datasets f = Except.ok out := by
  have hun := ((mem_get_all_ds_paths b t rkf p).mp hp).1
  have hsome : (b.datasets.get p).isSome = true ∨
      (t.datasets.get p).isSome = true := by
    rcases hun with h | h
    · exact Or.inl ((get_isSome_iff _ p).mpr h)
    · exact Or.inr ((get_isSome_iff _ p).mpr h)
  refine ⟨hsome, ?_⟩
  unfold snapshotPhase
  by_cases hbt : b.datasets = t.datasets
  · rw [if_pos hbt]
    exact ⟨_, rfl⟩
  · rw [if_neg hbt]
    cases hb : b.datasets.get p with
    | some bds => exact ⟨_, rfl⟩
    | none =>
      cases ht : t.datasets.get p with
      | some tds => exact ⟨_, rfl⟩
      | none =>
        rw [hb, ht] at hsome
        rcases hsome with h | h <;> exact Bool.noConfusion h

/-- Claim C6 witness: the claim theorem at a concrete enumerated path. -/
theorem claim_C6_witness :
    (((bRS.datasets).get "p").isSome = true ∨
      ((tRS.datasets).get "p").isSome = true) ∧
    ∃ out, snapshotPhase "p" bRS.datasets tRS.datasets
      DatasetKeyFilter.matchAll = Except.ok out :=
  claim_C6 bRS tRS RepoKeyFilter.matchAll "p" DatasetKeyFilter.matchAll
    (by decide)

theorem snapshotPhase_target (p : String) (b t : Datasets)
    (f : DatasetKeyFilter)
    (v : Option Dataset × Option Dataset × Option DatasetDiff)
    (hv : snapshotPhase p b t f = Except.ok v) : v.2.1 = t.get p := by
  unfold snapshotPhase at hv
  by_cases hbt : b = t
  · rw [if_pos hbt] at hv
    have := (Except.ok.injEq _ _).mp hv
    rw [← this, ← hbt]
  · rw [if_neg hbt] at hv
    cases hb : b.get p with
    | some bds =>
      rw [hb] at hv
      have := (Except.ok.injEq _ _).mp hv
      rw [← this]
    | none =>
      rw [hb] at hv
      cases ht : t.get p with
      | some tds =>
        rw [ht] at hv
        have := (Except.ok.injEq _ _).mp hv
        rw [← this]
      | none =>
        rw [ht] at hv
        exact Except.noConfusion hv

/-- Claim C4 counterexample: with the dataset absent in the target snapshot
and no cache supplied, the call does not complete normally — constructing the
cache dereferences the absent target dataset and fails. -/
theorem claim_C4_counterexample :
    (get_dataset_diff "p" bDs emptyDs true none DatasetKeyFilter.matchAll
      (St.mk 0 [])).1 = Except.error Err.absentTargetWcCache := by decide

/-- Claim C4 (amended): with `include_wc_diff` true, the dataset absent in
the target snapshot and a workdir_diff_cache supplied, the call behaves
exactly as if no working-copy diff had been requested (no working-copy diff
is attempted), and it completes normally with the pruned snapshot diff
whenever the snapshot phase itself cannot fail (identical sources, or the
dataset present in base).  Without a supplied cache the call fails, as the
counterexample shows. -/
theorem claim_C4 (p : String) (b t : Datasets) (c : Nat)
    (f : DatasetKeyFilter) (st : St) (h : t.get p = none) :
    get_dataset_diff p b t true (some c) f st =
      get_dataset_diff p b t false (some c) f st ∧
    ((b = t ∨ (b.get p).isSome = true) →
      ∃ d, (get_dataset_diff p b t true (some c) f st).1 = Except.ok d) := by
  constructor
  · unfold get_dataset_diff
    cases hsp : snapshotPhase p b t f with
    | error e => rfl
    | ok v =>
      obtain ⟨x, y, z⟩ := v
      have hy : y = t.get p := snapshotPhase_target p b t f (x, y, z) hsp
      rw [h] at hy
      subst hy
      rfl
  · intro hok
    have hsp : ∃ v, snapshotPhase p b t f = Except.ok v := by
      unfold snapshotPhase
      rcases hok with hbt | hbs
      · rw [if_pos hbt]
        exact ⟨_, rfl⟩
      · by_cases hbt : b = t
        · rw [if_pos hbt]
          exact ⟨_, rfl⟩
        · rw [if_neg hbt]
          cases hb : b.get p with
          | some bds => exact ⟨_, rfl⟩
          | none => rw [hb] at hbs; exact Bool.noConfusion hbs
    obtain ⟨v, hv⟩ := hsp
    obtain ⟨x, y, z⟩ := v
    have hy : y = t.get p := snapshotPhase_target p b t f (x, y, z) hv
    rw [h] at hy
    subst hy
    unfold get_dataset_diff
    rw [hv]
    exact ⟨_, rfl⟩

/-- Claim C4 witness: the amended claim at a concrete input where the target
side is absent and a cache is supplied. -/
theorem claim_C4_witness :
    ∃ d, (get_dataset_diff "p" bDs emptyDs true (some 7)
      DatasetKeyFilter.matchAll (St.mk 0 [])).1 = Except.ok d :=
  (claim_C4 "p" bDs emptyDs 7 DatasetKeyFilter.matchAll (St.mk 0 [])
    (by decide)).2 (Or.inr (by decide))

theorem finishRepo_snd (z : Except Err RepoDiff × St) :
    (finishRepo z).2 = z.2 := by
  cases z with
  | mk r s => cases r <;> rfl

/-- Claim C7: when `get_repo_diff` runs with `include_wc_diff` and no cache
supplied, exactly one working-copy diff cache is constructed, before the
per-dataset loop, and that same cache is the one received by every
per-dataset `get_dataset_diff` call; when a cache is supplied by the caller,
no cache is constructed at all. -/
theorem claim_C7 (b t : RepoStructure) (rkf : RepoKeyFilter)
    (n c c0 : Nat) (iwc : Bool) :
    ((get_repo_diff b t true none rkf (St.mk n [])).2.events.filter
        Event.isCacheNew = [Event.cacheNew n] ∧
      (get_repo_diff b t true none rkf (St.mk n [])).2.events.head? =
        some (Event.cacheNew n) ∧
      (get_repo_diff b t true none rkf (St.mk n [])).2.events.all
        (Event.usesCache n) = true) ∧
    (get_repo_diff b t iwc (some c) rkf (St.mk c0 [])).2.events.filter
      Event.isCacheNew = [] := by
  constructor
  · obtain ⟨tl, hevents, hfil, hall⟩ :=
      loop_events_some b.datasets t.datasets true n rkf
        (get_all_ds_paths b t rkf) [] (St.mk (n + 1) [Event.cacheNew n])
    have hE : (get_repo_diff b t true none rkf (St.mk n [])).2 =
        (repoDiffLoop b.datasets t.datasets true (some n) rkf
          (get_all_ds_paths b t rkf) [] (St.mk (n + 1) [Event.cacheNew n])).2 :=
      finishRepo_snd _
    rw [hevents] at hE
    have hEe : (get_repo_diff b t true none rkf (St.mk n [])).2.events =
        Event.cacheNew n :: tl := congrArg St.events hE
    refine ⟨?_, ?_, ?_⟩
    · rw [hEe]
      simp [List.filter_cons, Event.isCacheNew, hfil]
    · rw [hEe]
      rfl
    · rw [hEe]
      simp [List.all_cons, Event.usesCache, hall]
  · cases iwc with
    | false =>
      obtain ⟨tl, hevents, hall⟩ :=
        loop_events_nowc b.datasets t.datasets (some c) rkf
          (get_all_ds_paths b t rkf) [] (St.mk c0 [])
      have hE : (get_repo_diff b t false (some c) rkf (St.mk c0 [])).2 =
          (repoDiffLoop b.datasets t.datasets false (some c) rkf
            (get_all_ds_paths b t rkf) [] (St.mk c0 [])).2 :=
        finishRepo_snd _
      rw [hevents] at hE
      have hEe : (get_repo_diff b t false (some c) rkf (St.mk c0 [])).2.events =
          tl := congrArg St.events hE
      rw [hEe]
      apply filter_eq_nil_of_all_not
      rw [List.all_eq_true] at hall ⊢
      intro e he
      have := hall e he
      simp only [Bool.and_eq_true] at this
      exact this.1
    | true =>
      obtain ⟨tl, hevents, hfil, hall⟩ :=
        loop_events_some b.datasets t.datasets true c rkf
          (get_all_ds_paths b t rkf) [] (St.mk c0 [])
      have hE : (get_repo_diff b t true (some c) rkf (St.mk c0 [])).2 =
          (repoDiffLoop b.datasets t.datasets true (some c) rkf
            (get_all_ds_paths b t rkf) [] (St.mk c0 [])).2 :=
        finishRepo_snd _
      rw [hevents] at hE
      have hEe : (get_repo_diff b t true (some c) rkf (St.mk c0 [])).2.events =
          tl := congrArg St.events hE
      rw [hEe, hfil]

/-- Claim C9: with `include_wc_diff` false the diff computation is independent
of the working copy: the result is the same for any two working-copy states
over identical snapshot contents, no working-copy diff cache is constructed,
and `diff_to_working_copy` is never invoked. -/
theorem claim_C9 (be te : List (String × DsContent)) (r1 r2 : Repo)
    (c : Option Nat) (rkf : RepoKeyFilter) (st : St) (n : Nat) :
    get_repo_diff (RepoStructure.mk be r1) (RepoStructure.mk te r1) false c
        rkf st =
      get_repo_diff (RepoStructure.mk be r2) (RepoStructure.mk te r2) false c
        rkf st ∧
    (get_repo_diff (RepoStructure.mk be r1) (RepoStructure.mk te r1) false c
        rkf (St.mk n [])).2.events.filter Event.isCacheNew = [] ∧
    (get_repo_diff (RepoStructure.mk be r1) (RepoStructure.mk te r1) false c
        rkf (St.mk n [])).2.events.filter Event.isWcDiff = [] := by
  refine ⟨get_repo_diff_repo_irrel be te r1 r2 c rkf st, ?_, ?_⟩ <;>
  · obtain ⟨tl, hevents, hall⟩ :=
      loop_events_nowc (Datasets.mk be r1) (Datasets.mk te r1) c rkf
        (get_all_ds_paths (RepoStructure.mk be r1) (RepoStructure.mk te r1) rkf)
        [] (St.mk n [])
    have hE : (get_repo_diff (RepoStructure.mk be r1) (RepoStructure.mk te r1)
        false c rkf (St.mk n [])).2 =
        (repoDiffLoop (Datasets.mk be r1) (Datasets.mk te r1) false c rkf
          (get_all_ds_paths (RepoStructure.mk be r1) (RepoStructure.mk te r1)
            rkf) [] (St.mk n [])).2 :=
      finishRepo_snd _
    rw [hevents] at hE
    have hEe : (get_repo_diff (RepoStructure.mk be r1) (RepoStructure.mk te r1)
        false c rkf (St.mk n [])).2.events = tl := congrArg St.events hE
    rw [hEe]
    apply filter_eq_nil_of_all_not
    rw [List.all_eq_true] at hall ⊢
    intro e he
    have := hall e he
    simp only [Bool.and_eq_true] at this
    first
    | exact this.1
    | exact this.2

/-- Claim C1 counterexample: base value a, target value b, working copy equal
to the target value b (the feature changed between base and target and the
working copy matches the target).  The final DatasetDiff still contains the
entry for the key, contradicting the claim as stated. -/
theorem claim_C1_counterexample :
    (get_dataset_diff "p" bDs tDs true (some 0) DatasetKeyFilter.matchAll
      (St.mk 1 [])).1 =
      Except.ok [("feature", [("k", Delta.mk (some "a") (some "b"))])] ∧
    DatasetDiff.hasKey [("feature", [("k", Delta.mk (some "a") (some "b"))])]
      "feature" "k" = true := by decide

theorem hasKey_finish_cancel (bc tc wcC : DsContent) (f : DatasetKeyFilter)
    (K a bv : String)
    (hbv : alookup (itemsAt bc "feature") K = some a)
    (htv : alookup (itemsAt tc "feature") K = some bv)
    (hwv : alookup (itemsAt wcC "feature") K = some a) :
    DatasetDiff.hasKey
      (dsDiffFinish (some (dsContentDiffFwd bc (some tc) f))
        (some (dsContentDiffFwd tc (some wcC) f))) "feature" K = false := by
  have h1n := nodup_keys_dsContentDiffFwd bc (some tc) f
  have h2n := nodup_keys_dsContentDiffFwd tc (some wcC) f
  have hcn := nodup_keys_concatRaw _ _ h1n h2n
  have hfin : dsDiffFinish (some (dsContentDiffFwd bc (some tc) f))
      (some (dsContentDiffFwd tc (some wcC) f)) =
      DatasetDiff.prune (DatasetDiff.concatRaw (dsContentDiffFwd bc (some tc) f)
        (dsContentDiffFwd tc (some wcC) f)) := rfl
  rw [hfin, hasKey_prune _ hcn]
  have hmem1 : "feature" ∈ diffKinds bc (some tc) := by
    unfold diffKinds
    rw [List.mem_dedup, List.mem_append]
    left
    apply (alookup_isSome bc.parts "feature").mp
    cases hq : alookup bc.parts "feature" with
    | none =>
      have hit : itemsAt bc "feature" = [] := by
        unfold itemsAt
        rw [hq]
        rfl
      rw [hit] at hbv
      exact Option.noConfusion hbv
    | some _ => rfl
  have hmem2 : "feature" ∈ diffKinds tc (some wcC) := by
    unfold diffKinds
    rw [List.mem_dedup, List.mem_append]
    left
    apply (alookup_isSome tc.parts "feature").mp
    cases hq : alookup tc.parts "feature" with
    | none =>
      have hit : itemsAt tc "feature" = [] := by
        unfold itemsAt
        rw [hq]
        rfl
      rw [hit] at htv
      exact Option.noConfusion htv
    | some _ => rfl
  have hl1 : alookup (dsContentDiffFwd bc (some tc) f) "feature" =
      some (itemsDiff (itemsAt bc "feature") (optItemsAt (some tc) "feature") f) := by
    rw [alookup_dsContentDiffFwd, if_pos hmem1]
  have hl2 : alookup (dsContentDiffFwd tc (some wcC) f) "feature" =
      some (itemsDiff (itemsAt tc "feature") (optItemsAt (some wcC) "feature") f) := by
    rw [alookup_dsContentDiffFwd, if_pos hmem2]
  unfold DatasetDiff.hasKey
  rw [alookup_concatRaw _ _ _ h1n, hl1, hl2]
  simp only []
  have hopt1 : optItemsAt (some tc) "feature" = itemsAt tc "feature" := rfl
  have hopt2 : optItemsAt (some wcC) "feature" = itemsAt wcC "feature" := rfl
  rw [hopt1, hopt2]
  rw [alookup_DeltaDiff_concatenated _ _ _ (nodup_keys_itemsDiff _ _ _)]
  have hd1 := alookup_itemsDiff (itemsAt bc "feature") (itemsAt tc "feature") f K
  have hd2 := alookup_itemsDiff (itemsAt tc "feature") (itemsAt wcC "feature") f K
  by_cases hm : f.matches K
  · rw [if_pos hm] at hd1 hd2
    unfold itemsDelta at hd1 hd2
    rw [hbv, htv] at hd1
    rw [htv, hwv] at hd2
    by_cases hab : a = bv
    · rw [if_pos (by rw [hab])] at hd1
      rw [if_pos (by rw [hab])] at hd2
      rw [hd1, hd2]
      rfl
    · rw [if_neg (fun hh => hab (Option.some_inj.mp hh))] at hd1
      rw [if_neg (fun hh => hab ((Option.some_inj.mp hh).symm))] at hd2
      rw [hd1, hd2]
      simp
  · rw [if_neg hm] at hd1 hd2
    rw [hd1, hd2]
    rfl

/-- Claim C1 (amended): for a feature with key K changed between base and
target and then changed back in the working copy so that it equals the base
value, the final DatasetDiff returned by `get_dataset_diff` (concatenation of
the snapshot diff with the working-copy diff, then pruning) contains no entry
for K — the two deltas cancel. -/
theorem claim_C1 (p K a bv : String) (b t : Datasets) (c : Option Nat)
    (f : DatasetKeyFilter) (st : St) (bc tc wcC : DsContent)
    (hb : alookup b.entries p = some bc)
    (ht : alookup t.entries p = some tc)
    (hbv : alookup (itemsAt bc "feature") K = some a)
    (htv : alookup (itemsAt tc "feature") K = some bv)
    (hw : alookup t.repo.wc p = some wcC)
    (hwv : alookup (itemsAt wcC "feature") K = some a)
    (hne : a ≠ bv) :
    ∃ d, (get_dataset_diff p b t true c f st).1 = Except.ok d ∧
      DatasetDiff.hasKey d "feature" K = false := by
  have hbt : b ≠ t := by
    intro hEq
    rw [hEq] at hb
    have h1 : bc = tc := Option.some_inj.mp (hb.symm.trans ht)
    rw [h1] at hbv
    exact hne (Option.some_inj.mp (hbv.symm.trans htv))
  have hbg : b.get p = some (Dataset.mk p bc) := by
    unfold Datasets.get
    rw [hb]
    rfl
  have htg : t.get p = some (Dataset.mk p tc) := by
    unfold Datasets.get
    rw [ht]
    rfl
  have hsp : snapshotPhase p b t f =
      Except.ok (some (Dataset.mk p bc), some (Dataset.mk p tc),
        some ((Dataset.mk p bc).diff (some (Dataset.mk p tc)) f false)) := by
    unfold snapshotPhase
    rw [if_neg hbt, hbg, htg]
  have hwc : Dataset.diff_to_working_copy t.repo (Dataset.mk p tc) f =
      dsContentDiffFwd tc (some wcC) f := by
    unfold Dataset.diff_to_working_copy
    rw [show (Dataset.mk p tc).path = p from rfl,
      show (Dataset.mk p tc).content = tc from rfl, hw]
  have hd1 : (Dataset.mk p bc).diff (some (Dataset.mk p tc)) f false =
      dsContentDiffFwd bc (some tc) f := rfl
  have hkey := hasKey_finish_cancel bc tc wcC f K a bv hbv htv hwv
  cases c with
  | none =>
    refine ⟨dsDiffFinish (some (dsContentDiffFwd bc (some tc) f))
      (some (dsContentDiffFwd tc (some wcC) f)), ?_, hkey⟩
    unfold get_dataset_diff
    rw [hsp]
    show Except.ok (dsDiffFinish
        (some ((Dataset.mk p bc).diff (some (Dataset.mk p tc)) f false))
        (some (Dataset.diff_to_working_copy t.repo (Dataset.mk p tc) f))) = _
    rw [hwc, hd1]
  | some cid =>
    refine ⟨dsDiffFinish (some (dsContentDiffFwd bc (some tc) f))
      (some (dsContentDiffFwd tc (some wcC) f)), ?_, hkey⟩
    unfold get_dataset_diff
    rw [hsp]
    show Except.ok (dsDiffFinish
        (some ((Dataset.mk p bc).diff (some (Dataset.mk p tc)) f false))
        (some (Dataset.diff_to_working_copy t.repo (Dataset.mk p tc) f))) = _
    rw [hwc, hd1]

/-- Base-side fixture collection whose repo working copy equals the base
content again (the feature was changed back). -/
def bDsBack : Datasets := Datasets.mk [("p", bC)] repoB

/-- Target-side fixture collection over the changed-back working copy. -/
def tDsBack : Datasets := Datasets.mk [("p", tC)] repoB

/-- Claim C1 witness: the amended claim at a concrete input (base value a,
target value b, working copy changed back to a). -/
theorem claim_C1_witness :
    ∃ d, (get_dataset_diff "p" bDsBack tDsBack true (some 0)
      DatasetKeyFilter.matchAll (St.mk 1 [])).1 = Except.ok d ∧
      DatasetDiff.hasKey d "feature" "k" = false :=
  claim_C1 "p" "k" "a" "b" bDsBack tDsBack (some 0) DatasetKeyFilter.matchAll
    (St.mk 1 []) bC tC bC (by decide) (by decide) (by decide) (by decide)
    (by decide) (by decide) (by decide)
